import Mathlib

/-!
# Verification of the "STEEP & FAST" auto-fit geometry

A shallow embedding of the auto-fit core of the p5.js sketch: the
geometry primitives (`offsetRect`, `plaqueCorners`, `aabbFromPoints`)
and the fit-transform computation performed inside `draw`
(scale `s` and offsets `ox`/`oy`).

JavaScript numbers are modelled as real numbers `ℝ`; the `Infinity` /
`-Infinity` fold seeds of `aabbFromPoints` are modelled by `⊤` / `⊥`
in `EReal` (the extended reals), so that the reducer can be stated on
arbitrary, possibly empty, point lists exactly as the source writes it.
-/

open scoped EReal

noncomputable section

namespace SteepFast

/-- A point `{x, y}`, in design space or viewport space. -/
structure Pt where
  x : ℝ
  y : ℝ

/-- A plaque rectangle `{x, y, w, h}` in design units. -/
structure Rect where
  x : ℝ
  y : ℝ
  w : ℝ
  h : ℝ

/-- The AABB record returned by `aabbFromPoints`:
`{ minX, minY, maxX, maxY, w, h }`.  Fields live in `EReal` because the
source seeds its folds with `Infinity` / `-Infinity`; on any non-empty
input all fields are (coercions of) real numbers. -/
structure AABBE where
  minX : EReal
  minY : EReal
  maxX : EReal
  maxY : EReal
  w : EReal
  h : EReal

/-- A real-valued bounding box, as held by `draw` after inflating the
AABB by the motif pads (`bb.minX -= motifPad.left`, …,
`bb.w = bb.maxX - bb.minX`, `bb.h = bb.maxY - bb.minY`). -/
structure AABB where
  minX : ℝ
  minY : ℝ
  maxX : ℝ
  maxY : ℝ
  w : ℝ
  h : ℝ

/-- The Fit Transform `{scale, offsetX, offsetY}` of the spec's data
model: it maps a design point `p` to `(p.x*scale+offsetX, p.y*scale+offsetY)`. -/
structure FitT where
  scale : ℝ
  offsetX : ℝ
  offsetY : ℝ

/-- Source: `offsetRect(r, dx, dy)` — translates a rect by `(dx, dy)`. -/
def offsetRect (r : Rect) (dx dy : ℝ) : Rect :=
  { x := r.x + dx, y := r.y + dy, w := r.w, h := r.h }

/-- Source: `plaqueCorners(box, ang, skewK)` — the four parallelogram
corners (top edge shifted by `+skew`, bottom edge by `-skew`,
`skew = box.h * skewK`), each rotated about the rect's center. -/
def plaqueCorners (box : Rect) (ang skewK : ℝ) : List Pt :=
  let skew := box.h * skewK
  let pts : List Pt :=
    [ ⟨box.x + skew,         box.y⟩,          -- top-left
      ⟨box.x + box.w + skew, box.y⟩,          -- top-right
      ⟨box.x + box.w - skew, box.y + box.h⟩,  -- bottom-right
      ⟨box.x - skew,         box.y + box.h⟩ ] -- bottom-left
  let cx := box.x + box.w / 2
  let cy := box.y + box.h / 2
  let c := Real.cos ang
  let s := Real.sin ang
  pts.map (fun p =>
    let dx := p.x - cx
    let dy := p.y - cy
    ⟨cx + dx * c - dy * s, cy + dx * s + dy * c⟩)

/-- One step of the `for (const p of points)` loop body of
`aabbFromPoints`, acting on the state `(minX, minY, maxX, maxY)`. -/
def aabbStep (st : EReal × EReal × EReal × EReal) (p : Pt) :
    EReal × EReal × EReal × EReal :=
  (min st.1 ↑p.x, min st.2.1 ↑p.y, max st.2.2.1 ↑p.x, max st.2.2.2 ↑p.y)

/-- Source: `aabbFromPoints(points)` — folds min/max over the points
starting from the seeds `Infinity`/`-Infinity` (modelled `⊤`/`⊥`), then
records `w = maxX - minX`, `h = maxY - minY`. -/
def aabbFromPoints (points : List Pt) : AABBE :=
  let st := points.foldl aabbStep (⊤, ⊤, ⊥, ⊥)
  { minX := st.1, minY := st.2.1, maxX := st.2.2.1, maxY := st.2.2.2,
    w := st.2.2.1 - st.1, h := st.2.2.2 - st.2.1 }

/-- Source, `draw` line 89: `const padPx = 18`. -/
def padPx : ℝ := 18

/-- Source, `draw` lines 92–96: fit scale and centering offsets,
`s = min((width - 2*padPx)/bb.w, (height - 2*padPx)/bb.h)`,
`ox = (width - bb.w*s)/2 - bb.minX*s`, `oy = (height - bb.h*s)/2 - bb.minY*s`. -/
def fitTransform (bb : AABB) (width height : ℝ) : FitT :=
  let s := min ((width - 2 * padPx) / bb.w) ((height - 2 * padPx) / bb.h)
  { scale := s,
    offsetX := (width - bb.w * s) / 2 - bb.minX * s,
    offsetY := (height - bb.h * s) / 2 - bb.minY * s }

/-- Applying a Fit Transform to a point, per the spec's data model:
`p ↦ (p.x*scale + offsetX, p.y*scale + offsetY)`. -/
def applyFit (t : FitT) (p : Pt) : Pt :=
  ⟨p.x * t.scale + t.offsetX, p.y * t.scale + t.offsetY⟩

/-- Rotation about `(cx, cy)` by `ang`, exactly as the spec writes it:
`x' = cx + dx·cos(ang) - dy·sin(ang)`, `y' = cy + dx·sin(ang) + dy·cos(ang)`. -/
def rotateAboutCenter (cx cy ang : ℝ) (p : Pt) : Pt :=
  ⟨cx + (p.x - cx) * Real.cos ang - (p.y - cy) * Real.sin ang,
   cy + (p.x - cx) * Real.sin ang + (p.y - cy) * Real.cos ang⟩

/-- The spec's description of `plaqueCorners` (§4.1 contract, C2):
take the rectangle's corners, shift the top edge by `+skew` and the
bottom edge by `-skew` (`skew = box.h * skewK`), rotate each about the
rectangle's center, and list them top-left, top-right, bottom-right,
bottom-left. -/
def plaqueCornersSpec (box : Rect) (ang skewK : ℝ) : List Pt :=
  let skew := box.h * skewK
  let cx := box.x + box.w / 2
  let cy := box.y + box.h / 2
  [ rotateAboutCenter cx cy ang ⟨box.x + skew, box.y⟩,
    rotateAboutCenter cx cy ang ⟨box.x + box.w + skew, box.y⟩,
    rotateAboutCenter cx cy ang ⟨box.x + box.w - skew, box.y + box.h⟩,
    rotateAboutCenter cx cy ang ⟨box.x - skew, box.y + box.h⟩ ]

/-- The spec's formula for the fit scale (§4.2 step 5, C3):
`s = min((width - 2·padPx)/bbox.w, (height - 2·padPx)/bbox.h)`. -/
def specFitScale (bb : AABB) (width height : ℝ) : ℝ :=
  min ((width - 2 * padPx) / bb.w) ((height - 2 * padPx) / bb.h)

/-- The spec's centering offsets (§4.2 step 6, C3):
`offsetX = (width - bbox.w·s)/2 - bbox.minX·s` and likewise for y. -/
def specFitOffsets (bb : AABB) (width height : ℝ) : ℝ × ℝ :=
  let s := specFitScale bb width height
  ((width - bb.w * s) / 2 - bb.minX * s,
   (height - bb.h * s) / 2 - bb.minY * s)

/-- The single plaque of the spec's §8 concrete scenario:
`{x:0, y:0, w:900, h:220}`. -/
def c4box : Rect := ⟨0, 0, 900, 220⟩

/-- The auto-fit point set that `draw` assembles for the §8 scenario:
the plaque corners together with the corners of the same plaque offset
by the (zero) shadow offset, at angle `0` and `skewK = 0.45`. -/
def c4pts : List Pt :=
  plaqueCorners c4box 0 0.45 ++ plaqueCorners (offsetRect c4box 0 0) 0 0.45

/-! ## Helper lemmas -/

/-- Extensionality for points. -/
theorem Pt.ext_xy {p q : Pt} (hx : p.x = q.x) (hy : p.y = q.y) : p = q := by
  cases p; cases q; simp_all

/-- The four-fold state of `aabbFromPoints`' loop decomposes into four
independent folds. -/
theorem aabb_foldl_eq (pts : List Pt) (init : EReal × EReal × EReal × EReal) :
    pts.foldl aabbStep init =
      (pts.foldl (fun m p => min m ↑p.x) init.1,
        pts.foldl (fun m p => min m ↑p.y) init.2.1,
        pts.foldl (fun m p => max m ↑p.x) init.2.2.1,
        pts.foldl (fun m p => max m ↑p.y) init.2.2.2) := by
  induction pts generalizing init with
  | nil => rfl
  | cons p l ih => simp [List.foldl_cons, aabbStep, ih]

/-- A min-fold never exceeds its seed. -/
theorem foldl_min_le_init {α : Type*} [LinearOrder α] (l : List α) (a : α) :
    l.foldl min a ≤ a := by
  induction l generalizing a with
  | nil => exact le_refl a
  | cons b l ih => exact le_trans (ih (min a b)) (min_le_left a b)

/-- A min-fold is a lower bound of the list. -/
theorem foldl_min_le_mem {α : Type*} [LinearOrder α] {l : List α} {b : α}
    (hb : b ∈ l) (a : α) : l.foldl min a ≤ b := by
  induction l generalizing a with
  | nil => cases hb
  | cons c l ih =>
    rcases List.mem_cons.mp hb with h | h
    · subst h
      exact le_trans (foldl_min_le_init l (min a b)) (min_le_right a b)
    · exact ih h (min a c)

/-- A min-fold returns its seed or a member of the list. -/
theorem foldl_min_eq_init_or_mem {α : Type*} [LinearOrder α] (l : List α) (a : α) :
    l.foldl min a = a ∨ l.foldl min a ∈ l := by
  induction l generalizing a with
  | nil => exact Or.inl rfl
  | cons c l ih =>
    rcases ih (min a c) with h | h
    · rcases min_choice a c with h2 | h2
      · exact Or.inl (by rw [List.foldl_cons, h, h2])
      · exact Or.inr (by rw [List.foldl_cons, h, h2]; exact List.mem_cons_self c l)
    · exact Or.inr (List.mem_cons_of_mem c h)

/-- A max-fold is at least its seed. -/
theorem foldl_max_init_le {α : Type*} [LinearOrder α] (l : List α) (a : α) :
    a ≤ l.foldl max a := by
  induction l generalizing a with
  | nil => exact le_refl a
  | cons b l ih => exact le_trans (le_max_left a b) (ih (max a b))

/-- A max-fold is an upper bound of the list. -/
theorem foldl_max_mem_le {α : Type*} [LinearOrder α] {l : List α} {b : α}
    (hb : b ∈ l) (a : α) : b ≤ l.foldl max a := by
  induction l generalizing a with
  | nil => cases hb
  | cons c l ih =>
    rcases List.mem_cons.mp hb with h | h
    · subst h
      exact le_trans (le_max_right a b) (foldl_max_init_le l (max a b))
    · exact ih h (max a c)

/-- A max-fold returns its seed or a member of the list. -/
theorem foldl_max_eq_init_or_mem {α : Type*} [LinearOrder α] (l : List α) (a : α) :
    l.foldl max a = a ∨ l.foldl max a ∈ l := by
  induction l generalizing a with
  | nil => exact Or.inl rfl
  | cons c l ih =>
    rcases ih (max a c) with h | h
    · rcases max_choice a c with h2 | h2
      · exact Or.inl (by rw [List.foldl_cons, h, h2])
      · exact Or.inr (by rw [List.foldl_cons, h, h2]; exact List.mem_cons_self c l)
    · exact Or.inr (List.mem_cons_of_mem c h)

/-- `aabbFromPoints` field characterization: `minX`. -/
theorem aabbFromPoints_minX (pts : List Pt) :
    (aabbFromPoints pts).minX = (pts.map fun p => (p.x : EReal)).foldl min ⊤ := by
  simp [aabbFromPoints, aabb_foldl_eq, List.foldl_map]

/-- `aabbFromPoints` field characterization: `minY`. -/
theorem aabbFromPoints_minY (pts : List Pt) :
    (aabbFromPoints pts).minY = (pts.map fun p => (p.y : EReal)).foldl min ⊤ := by
  simp [aabbFromPoints, aabb_foldl_eq, List.foldl_map]

/-- `aabbFromPoints` field characterization: `maxX`. -/
theorem aabbFromPoints_maxX (pts : List Pt) :
    (aabbFromPoints pts).maxX = (pts.map fun p => (p.x : EReal)).foldl max ⊥ := by
  simp [aabbFromPoints, aabb_foldl_eq, List.foldl_map]

/-- `aabbFromPoints` field characterization: `maxY`. -/
theorem aabbFromPoints_maxY (pts : List Pt) :
    (aabbFromPoints pts).maxY = (pts.map fun p => (p.y : EReal)).foldl max ⊥ := by
  simp [aabbFromPoints, aabb_foldl_eq, List.foldl_map]

/-- `min` on `EReal` with a `⊤` seed. -/
theorem emin_top (x : EReal) : min ⊤ x = x := min_eq_right le_top

/-- `max` on `EReal` with a `⊥` seed. -/
theorem emax_bot (x : EReal) : max ⊥ x = x := max_eq_right bot_le

/-- `min` of real coercions in `EReal`. -/
theorem emin_coe (a b : ℝ) : min (a : EReal) (b : EReal) = ((min a b : ℝ) : EReal) :=
  (EReal.coe_strictMono.monotone.map_min).symm

/-- `max` of real coercions in `EReal`. -/
theorem emax_coe (a b : ℝ) : max (a : EReal) (b : EReal) = ((max a b : ℝ) : EReal) :=
  (EReal.coe_strictMono.monotone.map_max).symm

/-- The plaque corners of the §8 scenario, evaluated:
`skew = 220·0.45 = 99` and the rotation angle is `0`. -/
theorem c4_corners_eval :
    plaqueCorners c4box 0 0.45 = [⟨99, 0⟩, ⟨999, 0⟩, ⟨801, 220⟩, ⟨-99, 220⟩] := by
  simp only [plaqueCorners, c4box, Real.cos_zero, Real.sin_zero, List.map_cons,
    List.map_nil, List.cons.injEq, Pt.mk.injEq, and_true]
  norm_num

/-- The AABB of the §8 scenario's point set, evaluated. -/
theorem c4_aabb_eval :
    aabbFromPoints c4pts =
      ⟨((-99 : ℝ) : EReal), ((0 : ℝ) : EReal), ((999 : ℝ) : EReal),
        ((220 : ℝ) : EReal), ((1098 : ℝ) : EReal), ((220 : ℝ) : EReal)⟩ := by
  have hoff : offsetRect c4box 0 0 = c4box := by
    simp [offsetRect, c4box]
  have hpts : c4pts = [⟨99, 0⟩, ⟨999, 0⟩, ⟨801, 220⟩, ⟨-99, 220⟩,
      ⟨99, 0⟩, ⟨999, 0⟩, ⟨801, 220⟩, ⟨-99, 220⟩] := by
    rw [c4pts, hoff, c4_corners_eval]; rfl
  rw [hpts]
  simp only [aabbFromPoints, List.foldl_cons, List.foldl_nil, aabbStep,
    emin_top, emax_bot, emin_coe, emax_coe, AABBE.mk.injEq, ← EReal.coe_sub,
    EReal.coe_eq_coe_iff]
  norm_num [min_def, max_def]

/-! ## Claims -/

/-- C2. For every Rect `box` with `w > 0` and `h > 0`, every angle and
every `skewK`, `plaqueCorners box ang skewK` returns exactly 4 points,
namely the corners of the parallelogram obtained by shifting the
rectangle's top edge by `+skew` and its bottom edge by `-skew`
(`skew = box.h * skewK`), each rotated about the rectangle's center by
the standard 2D rotation, listed top-left, top-right, bottom-right,
bottom-left (as captured by `plaqueCornersSpec`). -/
theorem plaqueCorners_matches_spec (box : Rect) (ang skewK : ℝ)
    (hw : 0 < box.w) (hh : 0 < box.h) :
    (plaqueCorners box ang skewK).length = 4 ∧
      plaqueCorners box ang skewK = plaqueCornersSpec box ang skewK := by
  refine ⟨rfl, ?_⟩
  simp [plaqueCorners, plaqueCornersSpec, rotateAboutCenter]

/-- Witness for C2 at the concrete plaque `{x:120, y:120, w:900, h:220}`. -/
theorem plaqueCorners_matches_spec_witness :
    (0 : ℝ) < 900 ∧ (0 : ℝ) < 220 ∧
      ((plaqueCorners ⟨120, 120, 900, 220⟩ (-0.14) 0.45).length = 4 ∧
        plaqueCorners ⟨120, 120, 900, 220⟩ (-0.14) 0.45 =
          plaqueCornersSpec ⟨120, 120, 900, 220⟩ (-0.14) 0.45) :=
  ⟨by norm_num, by norm_num,
    plaqueCorners_matches_spec ⟨120, 120, 900, 220⟩ (-0.14) 0.45
      (by norm_num) (by norm_num)⟩

/-- C9. For every Rect, angle and skew factor, the centroid of the four
points returned by `plaqueCorners` equals the Rect's center
`(box.x + box.w/2, box.y + box.h/2)`. -/
theorem plaqueCorners_centroid (box : Rect) (ang skewK : ℝ) :
    (((plaqueCorners box ang skewK).map Pt.x).sum / 4 = box.x + box.w / 2) ∧
      (((plaqueCorners box ang skewK).map Pt.y).sum / 4 = box.y + box.h / 2) := by
  constructor <;> · simp [plaqueCorners]; ring

/-- C10. Translation equivariance: `plaqueCorners` applied to an
`offsetRect` by `(dx, dy)` equals the pointwise translation by
`(dx, dy)` of `plaqueCorners` on the original rect — so each shadow
corner in `draw`'s auto-fit point set is the corresponding plaque
corner shifted by the shadow offset. -/
theorem plaqueCorners_offsetRect (r : Rect) (dx dy ang skewK : ℝ) :
    plaqueCorners (offsetRect r dx dy) ang skewK =
      (plaqueCorners r ang skewK).map (fun p => ⟨p.x + dx, p.y + dy⟩) := by
  simp only [plaqueCorners, offsetRect, List.map_cons, List.map_nil,
    List.cons.injEq, Pt.mk.injEq, and_true]
  and_intros <;> ring

/-- C3. For every bounding box with positive width and height and every
viewport, `draw` computes the fit scale and the centering offsets by
exactly the formulas of §4.2:
`s = min((width-2·padPx)/bb.w, (height-2·padPx)/bb.h)`,
`offsetX = (width-bb.w·s)/2 - bb.minX·s`, `offsetY = (height-bb.h·s)/2 - bb.minY·s`. -/
theorem fitTransform_matches_spec (bb : AABB) (width height : ℝ)
    (hw : 0 < bb.w) (hh : 0 < bb.h) :
    (fitTransform bb width height).scale = specFitScale bb width height ∧
      (fitTransform bb width height).offsetX = (specFitOffsets bb width height).1 ∧
      (fitTransform bb width height).offsetY = (specFitOffsets bb width height).2 :=
  ⟨rfl, rfl, rfl⟩

/-- Witness for C3 at the bounding box `⟨-99, 0, 999, 220, 1098, 220⟩`
in a `1000×1000` viewport. -/
theorem fitTransform_matches_spec_witness :
    (0 : ℝ) < 1098 ∧ (0 : ℝ) < 220 ∧
      ((fitTransform ⟨-99, 0, 999, 220, 1098, 220⟩ 1000 1000).scale =
          specFitScale ⟨-99, 0, 999, 220, 1098, 220⟩ 1000 1000 ∧
        (fitTransform ⟨-99, 0, 999, 220, 1098, 220⟩ 1000 1000).offsetX =
          (specFitOffsets ⟨-99, 0, 999, 220, 1098, 220⟩ 1000 1000).1 ∧
        (fitTransform ⟨-99, 0, 999, 220, 1098, 220⟩ 1000 1000).offsetY =
          (specFitOffsets ⟨-99, 0, 999, 220, 1098, 220⟩ 1000 1000).2) :=
  ⟨by norm_num, by norm_num,
    fitTransform_matches_spec ⟨-99, 0, 999, 220, 1098, 220⟩ 1000 1000
      (by norm_num) (by norm_num)⟩

/-- C5, counterexample. A viewport with positive dimensions does NOT
guarantee a positive scale: for the bounding box `⟨0,0,1,1,1,1⟩` and
the positive viewport `1×1` (both dimensions `≤ 2·padPx = 36`), the
computed scale is negative. -/
theorem fitScale_positive_viewport_counterexample :
    (0 : ℝ) < 1 ∧ (0 : ℝ) < 1 ∧
      (fitTransform ⟨0, 0, 1, 1, 1, 1⟩ 1 1).scale < 0 := by
  norm_num [fitTransform, padPx]

/-- C5, amended. For every bounding box with positive width and height,
the computed scale is strictly positive provided the viewport satisfies
`width > 2·padPx` and `height > 2·padPx` (in the real-number model the
scale is automatically finite); for merely positive viewports at or
below `2·padPx` it can be zero or negative. -/
theorem fitScale_pos (bb : AABB) (W H : ℝ) (hw : 0 < bb.w) (hh : 0 < bb.h)
    (hW : 2 * padPx < W) (hH : 2 * padPx < H) :
    0 < (fitTransform bb W H).scale := by
  have ha : 0 < W - 2 * padPx := by linarith
  have hb : 0 < H - 2 * padPx := by linarith
  exact lt_min (div_pos ha hw) (div_pos hb hh)

/-- Witness for the amended C5 at `bb = ⟨0,0,10,10,10,10⟩`, viewport `100×100`. -/
theorem fitScale_pos_witness :
    (0 : ℝ) < 10 ∧ (0 : ℝ) < 10 ∧ 2 * padPx < (100 : ℝ) ∧ 2 * padPx < (100 : ℝ) ∧
      0 < (fitTransform ⟨0, 0, 10, 10, 10, 10⟩ 100 100).scale :=
  ⟨by norm_num, by norm_num, by norm_num [padPx], by norm_num [padPx],
    fitScale_pos ⟨0, 0, 10, 10, 10, 10⟩ 100 100 (by norm_num) (by norm_num)
      (by norm_num [padPx]) (by norm_num [padPx])⟩

/-- C8. If the height ratio is the binding axis, then doubling the
viewport width leaves the fit scale unchanged and increases `offsetX`
by exactly `W/2` (in particular strictly). -/
theorem fit_double_width (bb : AABB) (W H : ℝ) (hw : 0 < bb.w) (hh : 0 < bb.h)
    (hW : 2 * padPx < W) (hH : 2 * padPx < H)
    (hbind : (H - 2 * padPx) / bb.h ≤ (W - 2 * padPx) / bb.w) :
    (fitTransform bb (2 * W) H).scale = (fitTransform bb W H).scale ∧
      (fitTransform bb (2 * W) H).offsetX = (fitTransform bb W H).offsetX + W / 2 ∧
      (fitTransform bb W H).offsetX < (fitTransform bb (2 * W) H).offsetX := by
  have hpad : (0 : ℝ) < padPx := by norm_num [padPx]
  have h2 : (W - 2 * padPx) / bb.w ≤ (2 * W - 2 * padPx) / bb.w :=
    (div_le_div_right hw).mpr (by linarith)
  have hmin1 : (fitTransform bb (2 * W) H).scale = (H - 2 * padPx) / bb.h :=
    min_eq_right (hbind.trans h2)
  have hmin2 : (fitTransform bb W H).scale = (H - 2 * padPx) / bb.h :=
    min_eq_right hbind
  have hsc : (fitTransform bb (2 * W) H).scale = (fitTransform bb W H).scale :=
    hmin1.trans hmin2.symm
  have e1 : (fitTransform bb (2 * W) H).offsetX =
      (2 * W - bb.w * (fitTransform bb (2 * W) H).scale) / 2 -
        bb.minX * (fitTransform bb (2 * W) H).scale := rfl
  have e2 : (fitTransform bb W H).offsetX =
      (W - bb.w * (fitTransform bb W H).scale) / 2 -
        bb.minX * (fitTransform bb W H).scale := rfl
  have hox : (fitTransform bb (2 * W) H).offsetX =
      (fitTransform bb W H).offsetX + W / 2 := by
    rw [e1, e2, hsc]; ring
  exact ⟨hsc, hox, by rw [hox]; linarith⟩

/-- Witness for C8 at `bb = ⟨0,0,10,20,10,20⟩` (height binding), `W = H = 100`. -/
theorem fit_double_width_witness :
    (0 : ℝ) < 10 ∧ (0 : ℝ) < 20 ∧ 2 * padPx < (100 : ℝ) ∧ 2 * padPx < (100 : ℝ) ∧
      ((100 : ℝ) - 2 * padPx) / 20 ≤ ((100 : ℝ) - 2 * padPx) / 10 ∧
      ((fitTransform ⟨0, 0, 10, 20, 10, 20⟩ (2 * 100) 100).scale =
          (fitTransform ⟨0, 0, 10, 20, 10, 20⟩ 100 100).scale ∧
        (fitTransform ⟨0, 0, 10, 20, 10, 20⟩ (2 * 100) 100).offsetX =
          (fitTransform ⟨0, 0, 10, 20, 10, 20⟩ 100 100).offsetX + 100 / 2 ∧
        (fitTransform ⟨0, 0, 10, 20, 10, 20⟩ 100 100).offsetX <
          (fitTransform ⟨0, 0, 10, 20, 10, 20⟩ (2 * 100) 100).offsetX) :=
  ⟨by norm_num, by norm_num, by norm_num [padPx], by norm_num [padPx],
    by norm_num [padPx],
    fit_double_width ⟨0, 0, 10, 20, 10, 20⟩ 100 100 (by norm_num) (by norm_num)
      (by norm_num [padPx]) (by norm_num [padPx]) (by norm_num [padPx])⟩

/-- One-axis containment: if `s·w ≤ D - 2·pad`, `0 < s` and
`w = mx - mn`, then both mapped bbox edges of that axis lie in
`[pad, D - pad]`.  (The mapped edge values are written exactly as
`applyFit ∘ fitTransform` produces them.) -/
theorem axis_fit (D pad w mn mx s : ℝ) (hw : 0 < w) (hX : w = mx - mn)
    (hpad : 2 * pad < D) (hs : 0 < s) (hle : s * w ≤ D - 2 * pad) :
    (pad ≤ mn * s + ((D - w * s) / 2 - mn * s) ∧
        mn * s + ((D - w * s) / 2 - mn * s) ≤ D - pad) ∧
      (pad ≤ mx * s + ((D - w * s) / 2 - mn * s) ∧
        mx * s + ((D - w * s) / 2 - mn * s) ≤ D - pad) := by
  have h0 : 0 < w * s := mul_pos hw hs
  have hmx : mx * s = mn * s + w * s := by rw [hX]; ring
  refine ⟨⟨by linarith, by linarith⟩, ⟨by linarith, by linarith⟩⟩

/-- One-axis tightness: if the scale is exactly the axis-fit ratio,
i.e. `s·w = D - 2·pad`, the mapped bbox edges land exactly on `pad`
and `D - pad`. -/
theorem axis_tight (D pad w mn mx s : ℝ) (hX : w = mx - mn)
    (heq : s * w = D - 2 * pad) :
    mn * s + ((D - w * s) / 2 - mn * s) = pad ∧
      mx * s + ((D - w * s) / 2 - mn * s) = D - pad := by
  subst hX
  constructor
  · linear_combination (-1 / 2) * heq
  · linear_combination (1 / 2) * heq

/-- C1. For every bounding box with positive width and height
(consistent with its corner fields) and every viewport `(W,H)` with
`W > 2·padPx` and `H > 2·padPx`, the Fit Transform computed by `draw`
maps all four corners of the box into `[padPx, W-padPx] × [padPx, H-padPx]`,
and on at least one axis the mapped box edges land exactly on `padPx`
and `dimension - padPx`. -/
theorem fit_maps_bbox_inside (bb : AABB) (W H : ℝ)
    (hwX : bb.w = bb.maxX - bb.minX) (hhY : bb.h = bb.maxY - bb.minY)
    (hw : 0 < bb.w) (hh : 0 < bb.h)
    (hW : 2 * padPx < W) (hH : 2 * padPx < H) :
    (∀ p ∈ [(⟨bb.minX, bb.minY⟩ : Pt), ⟨bb.maxX, bb.minY⟩,
        ⟨bb.maxX, bb.maxY⟩, ⟨bb.minX, bb.maxY⟩],
      padPx ≤ (applyFit (fitTransform bb W H) p).x ∧
        (applyFit (fitTransform bb W H) p).x ≤ W - padPx ∧
        padPx ≤ (applyFit (fitTransform bb W H) p).y ∧
        (applyFit (fitTransform bb W H) p).y ≤ H - padPx) ∧
    (((applyFit (fitTransform bb W H) ⟨bb.minX, bb.minY⟩).x = padPx ∧
        (applyFit (fitTransform bb W H) ⟨bb.maxX, bb.minY⟩).x = W - padPx) ∨
      ((applyFit (fitTransform bb W H) ⟨bb.minX, bb.minY⟩).y = padPx ∧
        (applyFit (fitTransform bb W H) ⟨bb.minX, bb.maxY⟩).y = H - padPx)) := by
  have ha : 0 < W - 2 * padPx := by linarith
  have hb : 0 < H - 2 * padPx := by linarith
  have hspos : 0 < min ((W - 2 * padPx) / bb.w) ((H - 2 * padPx) / bb.h) :=
    lt_min (div_pos ha hw) (div_pos hb hh)
  have hsW : min ((W - 2 * padPx) / bb.w) ((H - 2 * padPx) / bb.h) * bb.w ≤
      W - 2 * padPx := (le_div_iff hw).mp (min_le_left _ _)
  have hsH : min ((W - 2 * padPx) / bb.w) ((H - 2 * padPx) / bb.h) * bb.h ≤
      H - 2 * padPx := (le_div_iff hh).mp (min_le_right _ _)
  have hx := axis_fit W padPx bb.w bb.minX bb.maxX _ hw hwX hW hspos hsW
  have hy := axis_fit H padPx bb.h bb.minY bb.maxY _ hh hhY hH hspos hsH
  constructor
  · intro p hp
    fin_cases hp
    · exact ⟨by simpa [applyFit, fitTransform] using hx.1.1,
        by simpa [applyFit, fitTransform] using hx.1.2,
        by simpa [applyFit, fitTransform] using hy.1.1,
        by simpa [applyFit, fitTransform] using hy.1.2⟩
    · exact ⟨by simpa [applyFit, fitTransform] using hx.2.1,
        by simpa [applyFit, fitTransform] using hx.2.2,
        by simpa [applyFit, fitTransform] using hy.1.1,
        by simpa [applyFit, fitTransform] using hy.1.2⟩
    · exact ⟨by simpa [applyFit, fitTransform] using hx.2.1,
        by simpa [applyFit, fitTransform] using hx.2.2,
        by simpa [applyFit, fitTransform] using hy.2.1,
        by simpa [applyFit, fitTransform] using hy.2.2⟩
    · exact ⟨by simpa [applyFit, fitTransform] using hx.1.1,
        by simpa [applyFit, fitTransform] using hx.1.2,
        by simpa [applyFit, fitTransform] using hy.2.1,
        by simpa [applyFit, fitTransform] using hy.2.2⟩
  · rcases le_total ((W - 2 * padPx) / bb.w) ((H - 2 * padPx) / bb.h) with hc | hc
    · have heq : min ((W - 2 * padPx) / bb.w) ((H - 2 * padPx) / bb.h) * bb.w =
          W - 2 * padPx := by
        rw [min_eq_left hc]; field_simp
      have ht := axis_tight W padPx bb.w bb.minX bb.maxX _ hwX heq
      exact Or.inl ⟨by simpa [applyFit, fitTransform] using ht.1,
        by simpa [applyFit, fitTransform] using ht.2⟩
    · have heq : min ((W - 2 * padPx) / bb.w) ((H - 2 * padPx) / bb.h) * bb.h =
          H - 2 * padPx := by
        rw [min_eq_right hc]; field_simp
      have ht := axis_tight H padPx bb.h bb.minY bb.maxY _ hhY heq
      exact Or.inr ⟨by simpa [applyFit, fitTransform] using ht.1,
        by simpa [applyFit, fitTransform] using ht.2⟩

/-- Witness for C1 at `bb = ⟨0,0,10,10,10,10⟩` in a `100×100` viewport. -/
theorem fit_maps_bbox_inside_witness :
    (10 : ℝ) = 10 - 0 ∧ (10 : ℝ) = 10 - 0 ∧ (0 : ℝ) < 10 ∧ (0 : ℝ) < 10 ∧
      2 * padPx < (100 : ℝ) ∧ 2 * padPx < (100 : ℝ) ∧
      ((∀ p ∈ [(⟨(0 : ℝ), (0 : ℝ)⟩ : Pt), ⟨10, 0⟩, ⟨10, 10⟩, ⟨0, 10⟩],
          padPx ≤ (applyFit (fitTransform ⟨0, 0, 10, 10, 10, 10⟩ 100 100) p).x ∧
            (applyFit (fitTransform ⟨0, 0, 10, 10, 10, 10⟩ 100 100) p).x ≤ 100 - padPx ∧
            padPx ≤ (applyFit (fitTransform ⟨0, 0, 10, 10, 10, 10⟩ 100 100) p).y ∧
            (applyFit (fitTransform ⟨0, 0, 10, 10, 10, 10⟩ 100 100) p).y ≤ 100 - padPx) ∧
        (((applyFit (fitTransform ⟨0, 0, 10, 10, 10, 10⟩ 100 100) ⟨0, 0⟩).x = padPx ∧
            (applyFit (fitTransform ⟨0, 0, 10, 10, 10, 10⟩ 100 100) ⟨10, 0⟩).x =
              100 - padPx) ∨
          ((applyFit (fitTransform ⟨0, 0, 10, 10, 10, 10⟩ 100 100) ⟨0, 0⟩).y = padPx ∧
            (applyFit (fitTransform ⟨0, 0, 10, 10, 10, 10⟩ 100 100) ⟨0, 10⟩).y =
              100 - padPx))) :=
  ⟨by norm_num, by norm_num, by norm_num, by norm_num,
    by norm_num [padPx], by norm_num [padPx],
    fit_maps_bbox_inside ⟨0, 0, 10, 10, 10, 10⟩ 100 100 (by norm_num) (by norm_num)
      (by norm_num) (by norm_num) (by norm_num [padPx]) (by norm_num [padPx])⟩

/-- C6. For every non-empty point list, `aabbFromPoints` brackets every
point (`minX ≤ p.x ≤ maxX`, `minY ≤ p.y ≤ maxY`) and each of the four
bounds is attained by some point of the list. -/
theorem aabbFromPoints_bounds (pts : List Pt) (hne : pts ≠ []) :
    (∀ p ∈ pts,
        (aabbFromPoints pts).minX ≤ (p.x : EReal) ∧
          ((p.x : ℝ) : EReal) ≤ (aabbFromPoints pts).maxX ∧
          (aabbFromPoints pts).minY ≤ (p.y : EReal) ∧
          ((p.y : ℝ) : EReal) ≤ (aabbFromPoints pts).maxY) ∧
      (∃ p ∈ pts, ((p.x : ℝ) : EReal) = (aabbFromPoints pts).minX) ∧
      (∃ p ∈ pts, ((p.x : ℝ) : EReal) = (aabbFromPoints pts).maxX) ∧
      (∃ p ∈ pts, ((p.y : ℝ) : EReal) = (aabbFromPoints pts).minY) ∧
      (∃ p ∈ pts, ((p.y : ℝ) : EReal) = (aabbFromPoints pts).maxY) := by
  obtain ⟨q, l, rfl⟩ : ∃ q l, pts = q :: l := by
    cases pts with
    | nil => exact absurd rfl hne
    | cons q l => exact ⟨q, l, rfl⟩
  refine ⟨?_, ?_, ?_, ?_, ?_⟩
  · intro p hp
    refine ⟨?_, ?_, ?_, ?_⟩
    · rw [aabbFromPoints_minX]
      exact foldl_min_le_mem (List.mem_map_of_mem (fun p => (p.x : EReal)) hp) ⊤
    · rw [aabbFromPoints_maxX]
      exact foldl_max_mem_le (List.mem_map_of_mem (fun p => (p.x : EReal)) hp) ⊥
    · rw [aabbFromPoints_minY]
      exact foldl_min_le_mem (List.mem_map_of_mem (fun p => (p.y : EReal)) hp) ⊤
    · rw [aabbFromPoints_maxY]
      exact foldl_max_mem_le (List.mem_map_of_mem (fun p => (p.y : EReal)) hp) ⊥
  · rcases foldl_min_eq_init_or_mem ((q :: l).map fun p => (p.x : EReal)) ⊤ with h | h
    · exfalso
      have hle := foldl_min_le_mem
        (List.mem_map_of_mem (fun p => (p.x : EReal)) (List.mem_cons_self q l)) ⊤
      rw [h] at hle
      exact (EReal.coe_lt_top q.x).not_le hle
    · obtain ⟨p, hp, hpe⟩ := List.mem_map.mp h
      exact ⟨p, hp, by rw [aabbFromPoints_minX]; exact hpe⟩
  · rcases foldl_max_eq_init_or_mem ((q :: l).map fun p => (p.x : EReal)) ⊥ with h | h
    · exfalso
      have hle := foldl_max_mem_le
        (List.mem_map_of_mem (fun p => (p.x : EReal)) (List.mem_cons_self q l)) ⊥
      rw [h] at hle
      exact (EReal.bot_lt_coe q.x).not_le hle
    · obtain ⟨p, hp, hpe⟩ := List.mem_map.mp h
      exact ⟨p, hp, by rw [aabbFromPoints_maxX]; exact hpe⟩
  · rcases foldl_min_eq_init_or_mem ((q :: l).map fun p => (p.y : EReal)) ⊤ with h | h
    · exfalso
      have hle := foldl_min_le_mem
        (List.mem_map_of_mem (fun p => (p.y : EReal)) (List.mem_cons_self q l)) ⊤
      rw [h] at hle
      exact (EReal.coe_lt_top q.y).not_le hle
    · obtain ⟨p, hp, hpe⟩ := List.mem_map.mp h
      exact ⟨p, hp, by rw [aabbFromPoints_minY]; exact hpe⟩
  · rcases foldl_max_eq_init_or_mem ((q :: l).map fun p => (p.y : EReal)) ⊥ with h | h
    · exfalso
      have hle := foldl_max_mem_le
        (List.mem_map_of_mem (fun p => (p.y : EReal)) (List.mem_cons_self q l)) ⊥
      rw [h] at hle
      exact (EReal.bot_lt_coe q.y).not_le hle
    · obtain ⟨p, hp, hpe⟩ := List.mem_map.mp h
      exact ⟨p, hp, by rw [aabbFromPoints_maxY]; exact hpe⟩

/-- Witness for C6 at the two-point list `[⟨1, 2⟩, ⟨5, -3⟩]`. -/
theorem aabbFromPoints_bounds_witness :
    ([(⟨1, 2⟩ : Pt), ⟨5, -3⟩] ≠ ([] : List Pt)) ∧
      ((∀ p ∈ [(⟨1, 2⟩ : Pt), ⟨5, -3⟩],
          (aabbFromPoints [(⟨1, 2⟩ : Pt), ⟨5, -3⟩]).minX ≤ (p.x : EReal) ∧
            ((p.x : ℝ) : EReal) ≤ (aabbFromPoints [(⟨1, 2⟩ : Pt), ⟨5, -3⟩]).maxX ∧
            (aabbFromPoints [(⟨1, 2⟩ : Pt), ⟨5, -3⟩]).minY ≤ (p.y : EReal) ∧
            ((p.y : ℝ) : EReal) ≤ (aabbFromPoints [(⟨1, 2⟩ : Pt), ⟨5, -3⟩]).maxY) ∧
        (∃ p ∈ [(⟨1, 2⟩ : Pt), ⟨5, -3⟩],
          ((p.x : ℝ) : EReal) = (aabbFromPoints [(⟨1, 2⟩ : Pt), ⟨5, -3⟩]).minX) ∧
        (∃ p ∈ [(⟨1, 2⟩ : Pt), ⟨5, -3⟩],
          ((p.x : ℝ) : EReal) = (aabbFromPoints [(⟨1, 2⟩ : Pt), ⟨5, -3⟩]).maxX) ∧
        (∃ p ∈ [(⟨1, 2⟩ : Pt), ⟨5, -3⟩],
          ((p.y : ℝ) : EReal) = (aabbFromPoints [(⟨1, 2⟩ : Pt), ⟨5, -3⟩]).minY) ∧
        (∃ p ∈ [(⟨1, 2⟩ : Pt), ⟨5, -3⟩],
          ((p.y : ℝ) : EReal) = (aabbFromPoints [(⟨1, 2⟩ : Pt), ⟨5, -3⟩]).maxY)) :=
  ⟨by simp, aabbFromPoints_bounds [⟨1, 2⟩, ⟨5, -3⟩] (by simp)⟩

/-- C7. On the empty list `aabbFromPoints` signals no error: it returns
the degenerate record of untouched fold seeds, `minX = minY = Infinity`
(modelled `⊤`) and `maxX = maxY = -Infinity` (modelled `⊥`).  The
embedded function is total, exactly as the JavaScript original. -/
theorem aabbFromPoints_empty :
    (aabbFromPoints ([] : List Pt)).minX = ⊤ ∧
      (aabbFromPoints ([] : List Pt)).minY = ⊤ ∧
      (aabbFromPoints ([] : List Pt)).maxX = ⊥ ∧
      (aabbFromPoints ([] : List Pt)).maxY = ⊥ :=
  ⟨rfl, rfl, rfl, rfl⟩

/-- C4, counterexample. In the §8 scenario the pipeline does NOT yield
`minX = 0`: the skew of `220·0.45 = 99` pushes the bottom-left corner
to `x = -99`, so the claimed bbox `{minX:0, minY:0, maxX:900, maxY:220}`
is wrong on `minX` (and on `maxX`). -/
theorem c4_bbox_counterexample :
    (aabbFromPoints c4pts).minX ≠ ((0 : ℝ) : EReal) := by
  rw [c4_aabb_eval]
  simp only [EReal.coe_eq_coe_iff]
  norm_num

/-- C4, amended. For the §8 scenario (single plaque `{0,0,900,220}`,
angle `0`, skewK `0.45`, zero shadow offset, zero motif pads, viewport
`1000×1000`, `padPx = 18`) the pipeline yields the bounding box
`{minX:-99, minY:0, maxX:999, maxY:220}` (so `w = 1098`, `h = 220`),
and the fit computed from it has scale
`min((1000-36)/1098, (1000-36)/220) = 482/549 ≈ 0.8780` (not `1.0711`)
with the centering offsets of §4.2, `offsetX = 6400/61`,
`offsetY = 221480/549`. -/
theorem c4_scenario_eval :
    aabbFromPoints c4pts =
      ⟨((-99 : ℝ) : EReal), ((0 : ℝ) : EReal), ((999 : ℝ) : EReal),
        ((220 : ℝ) : EReal), ((1098 : ℝ) : EReal), ((220 : ℝ) : EReal)⟩ ∧
      fitTransform ⟨-99, 0, 999, 220, 1098, 220⟩ 1000 1000 =
        ⟨482 / 549, 6400 / 61, 221480 / 549⟩ ∧
      |(482 : ℝ) / 549 - 0.8780| < 0.00005 := by
  refine ⟨c4_aabb_eval, ?_, by rw [abs_lt]; constructor <;> norm_num⟩
  simp only [fitTransform, padPx, FitT.mk.injEq]
  norm_num [min_def]

end SteepFast

end
